import Mathlib

/-!
Verification development for the excerpted query-engine core:

* the blocking result sink, `be/src/exec/blocking-plan-root-sink.cc` (Impala 3.3.0);
* the cluster membership manager, `be/src/scheduling/cluster-membership-mgr.cc`
  (Impala 3.3.0);
* the open-addressed hash table, `be/src/exec/hash-table.inline.h` (Impala 4.1.0).

Each definition is a shallow embedding of the corresponding source function;
line numbers in the doc comments refer to those source files.  Components whose
implementation is not part of the excerpt (`ExecutorGroup`, `ExecutorBlacklist`,
`GrowNodeArray`) are modelled from the specification and marked as such.
-/

namespace Sink

/-- Sender states of the result sink (`PlanRootSink::SenderState`): the spec's
`sender_state ∈ {ROWS_PENDING, EOS, CLOSED_NOT_EOS}`, initially `ROWS_PENDING`. -/
inductive SenderState where
  | ROWS_PENDING
  | EOS
  | CLOSED_NOT_EOS
deriving DecidableEq, Repr

/-- Atomic (mutex-serialized) sink events.  `sendPass` is one iteration of the
producer loop of `Send` (lines 48-70), `getNext` is the final, lock-protected
read of one `GetNext` call (lines 102-121); the others are whole calls. -/
inductive SinkEvent where
  | sendPass (batch : List Nat) (cursor : Nat)
  | flushFinal
  | close
  | cancel
  | getNext (n : Int)
deriving DecidableEq, Repr

/-- Effect of each event on `sender_state_`.  `FlushFinal` sets `EOS` (line 77);
`Close` sets `CLOSED_NOT_EOS` iff the state is still `ROWS_PENDING`
(lines 89-91); `Send`, `Cancel` and `GetNext` never write `sender_state_`. -/
def senderStep (s : SenderState) : SinkEvent → SenderState
  | .flushFinal => .EOS
  | .close => if s = .ROWS_PENDING then .CLOSED_NOT_EOS else s
  | _ => s

/-- The `eos` out-parameter of `GetNext`: `*eos = sender_state_ == SenderState::EOS`
(line 119). -/
def getNextEos (s : SenderState) : Bool := decide (s = SenderState.EOS)

/-- The list of `eos` values reported by the `getNext` events along a trace. -/
def eosOutputs (s : SenderState) : List SinkEvent → List Bool
  | [] => []
  | e :: tr =>
      (match e with
        | .getNext _ => [getNextEos s]
        | _ => []) ++ eosOutputs (senderStep s e) tr

/-- Rows one `Send` pass fetches (lines 60-61): `num_to_fetch` starts as the
rows remaining in the batch and is capped by `num_rows_requested_` only when
the latter is positive.  Arithmetic is on `int`, embedded as `Int`. -/
def numToFetch (numRows cursor : Nat) (requested : Int) : Int :=
  let n : Int := (numRows : Int) - (cursor : Int)
  if requested > 0 then min n requested else n

/-- `QueryResultSet::AddRows(output_expr_evals_, batch, start, num)` (line 62-63):
appends rows `[start, start+num)` of the batch, transformed by the output
expression evaluators, to the result set. -/
def addRows (eval : Nat → Nat) (rs : List Nat) (batch : List Nat) (start num : Nat) :
    List Nat :=
  rs ++ ((batch.drop start).take num).map eval

/-- Observable outcome of one producer pass of `Send`. -/
structure SendPassOut where
  delivered : List Nat
  resultsAfter : Option (List Nat)
  newCursor : Nat
  consumerSignalled : Bool
deriving DecidableEq, Repr

/-- One iteration of the producer loop in `Send` (lines 48-70), entered with
`cursor < batch.length`: fill `num_to_fetch` rows into the consumer's result
set, advance the batch cursor, reset `results_` to nil and signal
`consumer_cv_`.  Returns `none` when `results_` is nil (the producer would
block on `sender_cv_`, line 52-55). -/
def sendPass (eval : Nat → Nat) (batch : List Nat) (cursor : Nat)
    (results : Option (List Nat)) (requested : Int) : Option SendPassOut :=
  match results with
  | none => none
  | some rs =>
      let fetch := (numToFetch batch.length cursor requested).toNat
      some { delivered := addRows eval rs batch cursor fetch,
             resultsAfter := none,
             newCursor := cursor + fetch,
             consumerSignalled := true }

/-- State published by the consumer at the start of `GetNext` (lines 108-110):
`results_ = results; num_rows_requested_ = num_results`. -/
structure ConsumerRequest where
  results : Option (List Nat)
  numRowsRequested : Int
deriving DecidableEq, Repr

/-- The consumer side of `GetNext` before waiting (lines 108-110). -/
def getNextPublish (rs : List Nat) (n : Int) : ConsumerRequest :=
  { results := some rs, numRowsRequested := n }

/-- The row count the specification promises for one producer pass: the rows
remaining in the batch, capped by the request only when the request is
positive. -/
def specFetchCount (len cursor : Nat) (requested : Int) : Nat :=
  if requested > 0 then min (len - cursor) requested.toNat else len - cursor

/-- A concrete consumer/producer trace with no `FlushFinal`, used to witness
the `Close`-before-flush behaviour. -/
def c4Trace : List SinkEvent :=
  [SinkEvent.getNext 10, SinkEvent.sendPass [1, 2] 0, SinkEvent.getNext 0,
   SinkEvent.cancel, SinkEvent.getNext (-1)]

end Sink

namespace HashTable

/-- Row handles stored in the table (`HtData`: a tuple pointer or a
`FlatRowPtr` into the backing tuple stream), modelled as opaque identifiers. -/
abbrev HtData := Nat

/-- A node of a bucket's duplicate chain (`HashTable::DuplicateNode`); the
`next` pointer is represented by the list structure of the chain. -/
structure DuplicateNode where
  htdata : HtData
  matched : Bool
deriving DecidableEq, Repr

/-- The `BucketData` union of `hash-table.h`, modelled as a product: the
bucket's `hasDuplicates` flag selects the live member (`htdata` when false,
`duplicates` when true). -/
structure BucketData where
  htdata : HtData
  duplicates : List DuplicateNode
deriving DecidableEq, Repr

/-- `HashTable::Bucket`: filled flag, matched flag, has-duplicates flag and
the bucket data. -/
structure Bucket where
  filled : Bool
  matched : Bool
  hasDuplicates : Bool
  data : BucketData
deriving DecidableEq, Repr

/-- Modelled from the spec: the duplicate-node page allocator behind
`GrowNodeArray` (`hash-table.cc`, not part of the excerpt): "Duplicate-node
pages in the hash table are owned by the hash table; `GrowNodeArray` may fail,
returned through an out-status."  `nodeRemaining` is
`node_remaining_current_page_`; `growPages` lists the node capacities of the
pages that further `GrowNodeArray` calls can still allocate, so an empty list
means the next allocation fails for lack of memory. -/
structure NodeAlloc where
  nodeRemaining : Nat
  growPages : List Nat
deriving DecidableEq, Repr

/-- Statuses surfaced by the insert path: `GrowNodeArray` reports allocation
failure as a memory-limit error through its out-status. -/
inductive Status where
  | ok
  | memLimitExceeded
deriving DecidableEq, Repr

/-- The `while (node_remaining_current_page_ < 1 + !has_duplicates)` loop of
`InsertDuplicateNode` (lines 245-247): keep growing until `needed` nodes are
available on the current page; fail when `GrowNodeArray` fails. -/
def growLoop (needed remaining : Nat) (grows : List Nat) : Option (Nat × List Nat) :=
  if needed ≤ remaining then some (remaining, grows)
  else match grows with
    | [] => none
    | g :: rest => growLoop needed g rest

/-- `HashTable::InsertDuplicateNode` (lines 235-261).  If the bucket had no
duplicates yet, a node holding the existing resident's data is allocated
first, the bucket is linked to it and promoted to has-duplicates
(lines 248-257); then a fresh node (its `htdata` still to be filled in by
`Insert`) is linked at the head of the chain (lines 259-260, where
`AppendNextNode` makes the bucket point at the new node). -/
def insertDuplicateNode (b : Bucket) (alloc : NodeAlloc) : Option (Bucket × NodeAlloc) :=
  let needed := 1 + (if b.hasDuplicates then 0 else 1)
  match growLoop needed alloc.nodeRemaining alloc.growPages with
  | none => none
  | some (remaining, grows) =>
      let chain0 := if b.hasDuplicates then b.data.duplicates
                    else [{ htdata := b.data.htdata, matched := false }]
      let newNode : DuplicateNode := { htdata := 0, matched := false }
      let b' := { b with hasDuplicates := true,
                         data := { b.data with duplicates := newNode :: chain0 } }
      some (b', { nodeRemaining := remaining - needed, growPages := grows })

/-- Result of `HashTable::Insert` on the probed bucket. -/
structure InsertOut where
  success : Bool
  status : Status
  bucket : Bucket
  alloc : NodeAlloc
  hashSlot : Nat
deriving DecidableEq, Repr

/-- `HashTable::Insert` (lines 118-140) restricted to the bucket returned by
`Probe<true, true>`: `found` is the probe's out-flag (an equal row is already
resident).  If found, a duplicate node is inserted and the new node at the
chain head receives the new row's handle (lines 123-130); otherwise the bucket
is prepared for insert — marked filled, the hash stored in `hash_array_`
(modelled by `hashSlot`) — and the handle stored inline (lines 113, 131-137). -/
def insert (found : Bool) (b : Bucket) (alloc : NodeAlloc) (hash : Nat)
    (hashSlot : Nat) (newData : HtData) : InsertOut :=
  if found then
    match insertDuplicateNode b alloc with
    | none => { success := false, status := .memLimitExceeded, bucket := b,
                alloc := alloc, hashSlot := hashSlot }
    | some (b', alloc') =>
        let chain := match b'.data.duplicates with
          | [] => []
          | h :: t => { h with htdata := newData } :: t
        { success := true, status := .ok,
          bucket := { b' with data := { b'.data with duplicates := chain } },
          alloc := alloc', hashSlot := hashSlot }
  else
    { success := true, status := .ok,
      bucket := { b with filled := true, matched := false, hasDuplicates := false,
                         data := { b.data with htdata := newData } },
      alloc := alloc, hashSlot := hash }

/-- Triangular numbers: the cumulative quadratic-probe offset `k*(k+1)/2`. -/
def tri (k : Nat) : Nat := k * (k + 1) / 2

/-- The bucket-index sequence of `Probe` with quadratic probing (lines 59,
80-90): start at `hash & (num_buckets - 1)` and on step `k+1` advance by
`bucket_idx = (bucket_idx + step) & (num_buckets - 1)` with `step = k+1`. -/
def bucketSeq (hash numBuckets : Nat) : Nat → Nat
  | 0 => hash &&& (numBuckets - 1)
  | k + 1 => (bucketSeq hash numBuckets k + (k + 1)) &&& (numBuckets - 1)

end HashTable

namespace CMM

/-- `TNetworkAddress`: hostname and port. -/
structure TNetworkAddress where
  hostname : String
  port : Int
deriving DecidableEq, Repr

/-- `TExecutorGroupDesc`: the name of an executor group a backend belongs to. -/
structure TExecutorGroupDesc where
  name : String
deriving DecidableEq, Repr

/-- `TBackendDescriptor`: identity (address, ip), role flags and executor-group
memberships. -/
structure TBackendDescriptor where
  address : TNetworkAddress
  ip_address : String
  is_coordinator : Bool
  is_executor : Bool
  is_quiescing : Bool
  executor_groups : List TExecutorGroupDesc
deriving DecidableEq, Repr

/-- Modelled from the spec: `ExecutorGroup` (`be/src/scheduling/executor-group`
is not part of the excerpt): "name + ordered set of executors keyed by address;
exposes `AddExecutor`, `RemoveExecutor`, `LookUpBackendDesc(address)`". -/
structure ExecutorGroup where
  name : String
  executors : List TBackendDescriptor
deriving DecidableEq, Repr

/-- Modelled from the spec: `LookUpBackendDesc(address)` finds the group member
with the given address. -/
def ExecutorGroup.lookUpBackendDesc (g : ExecutorGroup) (addr : TNetworkAddress) :
    Option TBackendDescriptor :=
  g.executors.find? (fun be => decide (be.address = addr))

/-- Modelled from the spec: `AddExecutor` inserts a descriptor into the ordered
set keyed by address (a no-op if the address is already present). -/
def ExecutorGroup.addExecutor (g : ExecutorGroup) (be : TBackendDescriptor) :
    ExecutorGroup :=
  if g.executors.any (fun e => decide (e.address = be.address)) then g
  else { g with executors := g.executors ++ [be] }

/-- Modelled from the spec: `RemoveExecutor` removes the member keyed by the
descriptor's address. -/
def ExecutorGroup.removeExecutor (g : ExecutorGroup) (be : TBackendDescriptor) :
    ExecutorGroup :=
  { g with executors := g.executors.filter (fun e => !decide (e.address = be.address)) }

/-- Modelled from the spec: the per-backend blacklist states, with transitions
`NOT_BLACKLISTED → BLACKLISTED` (`Blacklist`), `BLACKLISTED → ON_PROBATION`
(timeout via `Maintenance`) and `ON_PROBATION → NOT_BLACKLISTED`
(`FindAndRemove` or timeout). -/
inductive BlacklistState where
  | NOT_BLACKLISTED
  | ON_PROBATION
  | BLACKLISTED
deriving DecidableEq, Repr

/-- An entry of the executor blacklist: the blacklisted descriptor and its
state (only `ON_PROBATION` and `BLACKLISTED` entries are stored). -/
structure BlacklistEntry where
  be : TBackendDescriptor
  state : BlacklistState
deriving DecidableEq, Repr

/-- Modelled from the spec: `ExecutorBlacklist` (`be/src/scheduling/executor-blacklist`
is not part of the excerpt): "set of (backend → state ∈ {NOT_BLACKLISTED,
ON_PROBATION, BLACKLISTED}) with timeouts driving probation → not-blacklisted
transitions; exposes `Blacklist`, `FindAndRemove` (returns prior state),
`IsBlacklisted`, `NeedsMaintenance`, `Maintenance(out probation_list)`".
Entries are keyed by backend address.  The wall-clock timeouts are abstracted
by an externally supplied list of addresses whose timer has elapsed. -/
structure ExecutorBlacklist where
  entries : List BlacklistEntry
deriving DecidableEq, Repr

/-- Modelled from the spec: `FindAndRemove` removes the entry for the backend
and returns its prior state (`NOT_BLACKLISTED` if absent). -/
def ExecutorBlacklist.findAndRemove (bl : ExecutorBlacklist) (be : TBackendDescriptor) :
    BlacklistState × ExecutorBlacklist :=
  match bl.entries.find? (fun e => decide (e.be.address = be.address)) with
  | none => (.NOT_BLACKLISTED, bl)
  | some e =>
      (e.state,
       { entries := bl.entries.filter (fun x => !decide (x.be.address = be.address)) })

/-- Modelled from the spec: `IsBlacklisted` holds when the entry for the
backend is in state `BLACKLISTED`. -/
def ExecutorBlacklist.isBlacklisted (bl : ExecutorBlacklist) (be : TBackendDescriptor) :
    Bool :=
  match bl.entries.find? (fun e => decide (e.be.address = be.address)) with
  | none => false
  | some e => decide (e.state = BlacklistState.BLACKLISTED)

/-- Modelled from the spec: `Blacklist` puts the backend into state
`BLACKLISTED` (replacing any existing entry for its address). -/
def ExecutorBlacklist.blacklist (bl : ExecutorBlacklist) (be : TBackendDescriptor) :
    ExecutorBlacklist :=
  { entries := { be := be, state := .BLACKLISTED } ::
      bl.entries.filter (fun x => !decide (x.be.address = be.address)) }

/-- Modelled from the spec: `NeedsMaintenance` holds when some entry's timeout
has elapsed (the clock is abstracted by `elapsed`). -/
def ExecutorBlacklist.needsMaintenance (bl : ExecutorBlacklist)
    (elapsed : List TNetworkAddress) : Bool :=
  bl.entries.any (fun e => elapsed.any (fun a => decide (a = e.be.address)))

/-- Modelled from the spec: `Maintenance(out probation_list)` moves timed-out
`BLACKLISTED` entries to `ON_PROBATION`, returning them in the probation list,
and drops timed-out `ON_PROBATION` entries. -/
def ExecutorBlacklist.maintenance (bl : ExecutorBlacklist)
    (elapsed : List TNetworkAddress) : List TBackendDescriptor × ExecutorBlacklist :=
  let expired := fun (e : BlacklistEntry) =>
    elapsed.any (fun a => decide (a = e.be.address))
  let probation :=
    (bl.entries.filter (fun e => expired e && decide (e.state = BlacklistState.BLACKLISTED))).map
      (fun e => e.be)
  let entries' :=
    (bl.entries.filter
        (fun e => !(expired e && decide (e.state = BlacklistState.ON_PROBATION)))).map
      (fun e => if expired e && decide (e.state = BlacklistState.BLACKLISTED) then
          { e with state := .ON_PROBATION } else e)
  (probation, { entries := entries' })

/-- `ClusterMembershipMgr::Snapshot`: version, backend map keyed by backend id,
executor groups keyed by name, the blacklist and the local backend descriptor.
The maps are embedded as key-unique association lists. -/
structure Snapshot where
  version : Nat
  current_backends : List (String × TBackendDescriptor)
  executor_groups : List (String × ExecutorGroup)
  executor_blacklist : ExecutorBlacklist
  local_be_desc : Option TBackendDescriptor
deriving DecidableEq, Repr

/-- The default-constructed empty snapshot installed by the constructor
(line 55, `std::make_shared<const Snapshot>()`). -/
def Snapshot.empty : Snapshot :=
  { version := 0, current_backends := [], executor_groups := [],
    executor_blacklist := { entries := [] }, local_be_desc := none }

/-- Lookup in the backend map (`BackendIdMap::find`). -/
def lookupBE (m : List (String × TBackendDescriptor)) (k : String) :
    Option TBackendDescriptor :=
  (m.find? (fun p => decide (p.1 = k))).map (fun p => p.2)

/-- Insert-or-overwrite in the backend map (`(*new_backend_map)[key] = desc`). -/
def setBE (m : List (String × TBackendDescriptor)) (k : String)
    (v : TBackendDescriptor) : List (String × TBackendDescriptor) :=
  if m.any (fun p => decide (p.1 = k)) then
    m.map (fun p => if p.1 = k then (k, v) else p)
  else m ++ [(k, v)]

/-- Erase from the backend map (`new_backend_map->erase(key)`, line 214). -/
def eraseBE (m : List (String × TBackendDescriptor)) (k : String) :
    List (String × TBackendDescriptor) :=
  m.filter (fun p => !decide (p.1 = k))

/-- Lookup in the executor-group map (`executor_groups.find(name)`). -/
def egLookup (gs : List (String × ExecutorGroup)) (name : String) :
    Option ExecutorGroup :=
  (gs.find? (fun p => decide (p.1 = name))).map (fun p => p.2)

/-- `FindOrInsertExecutorGroup` (lines 31-42) followed by a mutation of the
returned group: applies `f` to the group named by `gd`, inserting a fresh
empty group first when it does not exist yet. -/
def findOrInsertApply (gs : List (String × ExecutorGroup)) (gd : TExecutorGroupDesc)
    (f : ExecutorGroup → ExecutorGroup) : List (String × ExecutorGroup) :=
  if gs.any (fun p => decide (p.1 = gd.name)) then
    gs.map (fun p => if p.1 = gd.name then (p.1, f p.2) else p)
  else gs ++ [(gd.name, f { name := gd.name, executors := [] })]

/-- The loop removing a backend from each of its groups (lines 207-213,
267-271). -/
def removeFromGroups (gs : List (String × ExecutorGroup)) (be : TBackendDescriptor)
    (gds : List TExecutorGroupDesc) : List (String × ExecutorGroup) :=
  gds.foldl (fun acc g => findOrInsertApply acc g (fun grp => grp.removeExecutor be)) gs

/-- The loop adding a backend to each of its groups (lines 278-281, 296-300). -/
def addToGroups (gs : List (String × ExecutorGroup)) (be : TBackendDescriptor)
    (gds : List TExecutorGroupDesc) : List (String × ExecutorGroup) :=
  gds.foldl (fun acc g => findOrInsertApply acc g (fun grp => grp.addExecutor be)) gs

/-- The `address_to_backend` map of `CheckConsistency` (lines 492-496), built
with `emplace` semantics: the first backend with a given address wins. -/
def addressToBackend (backends : List (String × TBackendDescriptor)) :
    List (TNetworkAddress × TBackendDescriptor) :=
  backends.foldl
    (fun acc p =>
      if acc.any (fun q => decide (q.1 = p.2.address)) then acc
      else acc ++ [(p.2.address, p.2)]) []

/-- `ClusterMembershipMgr::CheckConsistency` (lines 490-541): every backend in
any group must be an executor, not quiescing, present (by address) in the
current backends with agreeing `is_quiescing`/`is_executor` flags, and not
blacklisted. -/
def checkConsistency (backends : List (String × TBackendDescriptor))
    (groups : List (String × ExecutorGroup)) (bl : ExecutorBlacklist) : Bool :=
  let addrMap := addressToBackend backends
  groups.all (fun gp =>
    gp.2.executors.all (fun gb =>
      gb.is_executor && !gb.is_quiescing &&
      (match (addrMap.find? (fun q => decide (q.1 = gb.address))).map (fun q => q.2) with
       | none => false
       | some cur =>
           decide (cur.is_quiescing = gb.is_quiescing) &&
           decide (cur.is_executor = gb.is_executor)) &&
      !(bl.isBlacklisted gb)))

/-- A topic item of the membership topic.  `value` is the result of
`DeserializeThriftMsg` on the payload; `none` models a payload the
deserializer rejects (lines 224-231). -/
structure TTopicItem where
  key : String
  value : Option TBackendDescriptor
  deleted : Bool
deriving DecidableEq, Repr

/-- `TTopicDelta`: a full or delta update with its topic entries. -/
structure TTopicDelta where
  is_delta : Bool
  topic_entries : List TTopicItem
deriving DecidableEq, Repr

/-- The environment of one `UpdateMembership` call: the membership topic's
delta, if present in `incoming_topic_deltas` (lines 120-124); the local
backend descriptor returned by `GetLocalBackendDescriptor()` (line 135); the
statestore subscriber's post-recovery flag (lines 140-141); and the clock
oracle for the blacklist (addresses whose blacklist timeout has elapsed). -/
structure UpdateInput where
  topic : Option TTopicDelta
  local_be_desc : Option TBackendDescriptor
  ss_is_recovering : Bool
  elapsedAddrs : List TNetworkAddress
deriving DecidableEq, Repr

/-- The manager state relevant to membership updates: the two snapshot slots
and the fixed local backend id. -/
structure CmmState where
  local_backend_id : String
  current_membership : Snapshot
  recovering_membership : Option Snapshot
deriving DecidableEq, Repr

/-- `ClusterMembershipMgr` construction (lines 53-64): empty published
snapshot, no recovering snapshot. -/
def cmmInit (lid : String) : CmmState :=
  { local_backend_id := lid, current_membership := Snapshot.empty,
    recovering_membership := none }

/-- `ClusterMembershipMgr::NeedsLocalBackendUpdate` (lines 481-488). -/
def needsLocalBackendUpdate (localId : String) (state : Snapshot)
    (local_be : Option TBackendDescriptor) : Bool :=
  match local_be with
  | none => false
  | some ld =>
      match state.local_be_desc with
      | none => true
      | some _ =>
          match lookupBE state.current_backends localId with
          | none => true
          | some existing => decide (existing.is_quiescing ≠ ld.is_quiescing)

/-- Processing of one topic item (lines 197-288).  The `Bool` component of the
accumulator is the `update_local_server` flag, set when a tracked backend is
deleted (line 215). -/
def processItem (localId : String) (acc : Snapshot × Bool) (item : TTopicItem) :
    Snapshot × Bool :=
  let st := acc.1
  let uls := acc.2
  if item.deleted then
    match lookupBE st.current_backends item.key with
    | none => (st, uls)
    | some be_desc =>
        let pr := st.executor_blacklist.findAndRemove be_desc
        let blacklisted := decide (pr.1 = BlacklistState.BLACKLISTED)
        let groups' :=
          if be_desc.is_executor && !be_desc.is_quiescing && !blacklisted then
            removeFromGroups st.executor_groups be_desc be_desc.executor_groups
          else st.executor_groups
        ({ st with executor_blacklist := pr.2, executor_groups := groups',
                   current_backends := eraseBE st.current_backends item.key }, true)
  else
    match item.value with
    | none => (st, uls)
    | some be_desc =>
        if be_desc.ip_address.isEmpty then (st, uls)
        else if item.key = localId then (st, uls)
        else
          match lookupBE st.current_backends item.key with
          | some existing =>
              let pr := st.executor_blacklist.findAndRemove be_desc
              let blacklisted := decide (pr.1 = BlacklistState.BLACKLISTED)
              let groups' :=
                if be_desc.is_quiescing && !existing.is_quiescing &&
                    existing.is_executor && !blacklisted then
                  removeFromGroups st.executor_groups be_desc be_desc.executor_groups
                else st.executor_groups
              ({ st with executor_blacklist := pr.2, executor_groups := groups',
                         current_backends := setBE st.current_backends item.key be_desc },
               uls)
          | none =>
              let groups' :=
                if !be_desc.is_quiescing && be_desc.is_executor then
                  addToGroups st.executor_groups be_desc be_desc.executor_groups
                else st.executor_groups
              ({ st with current_backends := setBE st.current_backends item.key be_desc,
                         executor_groups := groups' }, uls)

/-- Blacklist maintenance (lines 290-303): run `Maintenance` and re-add the
probation backends to each of their groups. -/
def applyMaintenance (st : Snapshot) (elapsed : List TNetworkAddress) : Snapshot :=
  let pr := st.executor_blacklist.maintenance elapsed
  let groups' := pr.1.foldl (fun gs be => addToGroups gs be be.executor_groups)
    st.executor_groups
  { st with executor_blacklist := pr.2, executor_groups := groups' }

/-- Applying the local backend descriptor (lines 307-320): overwrite the local
entry of the backend map and reflect it in the groups — remove when quiescing,
add when an executor. -/
def applyLocalBe (st : Snapshot) (localId : String) (ld : TBackendDescriptor) :
    Snapshot :=
  let backends' := setBE st.current_backends localId ld
  let groups' := ld.executor_groups.foldl
    (fun gs g =>
      if ld.is_quiescing then
        findOrInsertApply gs g (fun grp => grp.removeExecutor ld)
      else if ld.is_executor then
        findOrInsertApply gs g (fun grp => grp.addExecutor ld)
      else gs)
    st.executor_groups
  { st with current_backends := backends', executor_groups := groups' }

/-- The early-return condition of `UpdateMembership` (lines 127-156): the
update is an empty delta, the local backend descriptor needs no change, no
post-recovery publish is pending, and no blacklist maintenance is due. -/
def earlyReturnNoWork (s : CmmState) (inp : UpdateInput) (u : TTopicDelta) : Bool :=
  let base := s.recovering_membership.getD s.current_membership
  (u.is_delta && u.topic_entries.isEmpty) &&
  !(needsLocalBackendUpdate s.local_backend_id base inp.local_be_desc) &&
  !(s.recovering_membership.isSome && !inp.ss_is_recovering) &&
  !(base.executor_blacklist.needsMaintenance inp.elapsedAddrs)

/-- The snapshot-building part of `UpdateMembership` (lines 166-323): start
from empty on a full transmit, else reuse the recovering snapshot or copy the
current one; set the local descriptor (line 189), bump the version (line 190),
apply the topic items, run blacklist maintenance if due, and re-apply the
local backend descriptor if still needed. -/
def applyUpdate (s : CmmState) (inp : UpdateInput) (update : TTopicDelta) : Snapshot :=
  let base := s.recovering_membership.getD s.current_membership
  let needs_blacklist_maintenance :=
    base.executor_blacklist.needsMaintenance inp.elapsedAddrs
  let state0 := if !update.is_delta then Snapshot.empty else base
  let state1 := match inp.local_be_desc with
    | some d => { state0 with local_be_desc := some d }
    | none => state0
  let state2 := { state1 with version := state1.version + 1 }
  let uls1 := if !update.is_delta then true
    else s.recovering_membership.isSome && !inp.ss_is_recovering
  let res3 := update.topic_entries.foldl (processItem s.local_backend_id) (state2, uls1)
  let state3 := res3.1
  let state4 := if needs_blacklist_maintenance then
      applyMaintenance state3 inp.elapsedAddrs
    else state3
  match inp.local_be_desc with
  | some ld =>
      if needsLocalBackendUpdate s.local_backend_id state4 (some ld) then
        applyLocalBe state4 s.local_backend_id ld
      else state4
  | none => state4

/-- `ClusterMembershipMgr::UpdateMembership` (lines 114-341).  Returns the new
manager state and the snapshot passed to `SetState`, if any: on a spurious
message (topic absent, line 124) or when no work is needed (lines 153-156)
nothing changes; while the statestore is in its post-recovery grace period the
new snapshot is parked in `recovering_membership` (lines 329-332); otherwise
it is published and the recovering slot cleared (lines 339-340). -/
def updateMembership (s : CmmState) (inp : UpdateInput) : CmmState × Option Snapshot :=
  match inp.topic with
  | none => (s, none)
  | some update =>
      if earlyReturnNoWork s inp update then (s, none)
      else
        let ns := applyUpdate s inp update
        if inp.ss_is_recovering then
          ({ s with recovering_membership := some ns }, none)
        else
          ({ s with current_membership := ns, recovering_membership := none }, some ns)

/-- `ClusterMembershipMgr::BlacklistExecutor` (lines 343-415).  Returns the
new manager state and the snapshot passed to `SetState`, if any.  `enabled`
is `ExecutorBlacklist::BlacklistingEnabled()` (line 344).  The source
dereferences `current_membership_->local_be_desc` unconditionally (line 348);
its call contract has the local descriptor set, and the model returns without
action when it is not. -/
def blacklistExecutor (s : CmmState) (enabled : Bool) (be : TBackendDescriptor) :
    CmmState × Option Snapshot :=
  if !enabled then (s, none)
  else
    match s.current_membership.local_be_desc with
    | none => (s, none)
    | some lbe =>
        if decide (be.ip_address = lbe.ip_address) &&
            decide (be.address.port = lbe.address.port) then (s, none)
        else
          let recovering := s.recovering_membership.isSome
          let base := s.recovering_membership.getD s.current_membership
          let existsInGroups := be.executor_groups.any (fun g =>
            match egLookup base.executor_groups g.name with
            | some grp => (grp.lookUpBackendDesc be.address).isSome
            | none => false)
          if !existsInGroups then (s, none)
          else
            let groups1 := be.executor_groups.foldl
              (fun gs g => findOrInsertApply gs g (fun grp => grp.removeExecutor be))
              base.executor_groups
            let st1 := { base with executor_groups := groups1,
                                   executor_blacklist := base.executor_blacklist.blacklist be }
            if recovering then ({ s with recovering_membership := some st1 }, none)
            else ({ s with current_membership := st1 }, some st1)

/-- The two write entry points of the manager, as trace events. -/
inductive CmmCall where
  | update (inp : UpdateInput)
  | blacklistExec (enabled : Bool) (be : TBackendDescriptor)

/-- Dispatch of one manager call. -/
def cmmStep (s : CmmState) : CmmCall → CmmState × Option Snapshot
  | .update inp => updateMembership s inp
  | .blacklistExec en be => blacklistExecutor s en be

/-- The pointer-level view of the two snapshot slots: `current` is the shared
pointer read by `GetSnapshot` (`none` models a null pointer). -/
structure CmmPtr where
  local_backend_id : String
  current : Option Snapshot
  recovering : Option Snapshot

/-- The constructor (lines 53-58) initializes `current_membership_` to a
non-null empty snapshot. -/
def cmmPtrInit (lid : String) : CmmPtr :=
  { local_backend_id := lid, current := some Snapshot.empty, recovering := none }

/-- One manager call at the pointer level: `SetState` (lines 475-479) only
ever installs the non-null snapshots built by `UpdateMembership` and
`BlacklistExecutor`. -/
def ptrStep (p : CmmPtr) (c : CmmCall) : CmmPtr :=
  match p.current with
  | none => p
  | some cur =>
      let s : CmmState := { local_backend_id := p.local_backend_id,
                            current_membership := cur,
                            recovering_membership := p.recovering }
      let s' := (cmmStep s c).1
      { local_backend_id := p.local_backend_id,
        current := some s'.current_membership,
        recovering := s'.recovering_membership }

/-- `ClusterMembershipMgr::GetSnapshot` (lines 107-112): return the current
shared pointer. -/
def getSnapshot (p : CmmPtr) : Option Snapshot := p.current

/-- A whole sequence of manager calls from a given pointer state. -/
def ptrRun (p : CmmPtr) (cs : List CmmCall) : CmmPtr := cs.foldl ptrStep p

/-- Address of the remote backend used in the concrete runs below. -/
def addrB : TNetworkAddress := { hostname := "be-1", port := 25000 }

/-- Address of the local (coordinator) backend used in the concrete runs. -/
def addrL : TNetworkAddress := { hostname := "coord", port := 25000 }

/-- The executor group named g1. -/
def grpG1 : TExecutorGroupDesc := { name := "g1" }

/-- Remote backend B as first registered: an executor of group g1. -/
def descB1 : TBackendDescriptor :=
  { address := addrB, ip_address := "10.0.0.2", is_coordinator := false,
    is_executor := true, is_quiescing := false, executor_groups := [grpG1] }

/-- Remote backend B as re-registered in place: the executor flag flipped off,
not quiescing, same address and groups. -/
def descB2 : TBackendDescriptor := { descB1 with is_executor := false }

/-- The local backend: a pure coordinator in no executor group. -/
def descL : TBackendDescriptor :=
  { address := addrL, ip_address := "10.0.0.1", is_coordinator := true,
    is_executor := false, is_quiescing := false, executor_groups := [] }

/-- First delta of the consistency-violating run: register backend B. -/
def c1Inp1 : UpdateInput :=
  { topic := some { is_delta := true,
                    topic_entries := [{ key := "B", value := some descB1,
                                        deleted := false }] },
    local_be_desc := none, ss_is_recovering := false, elapsedAddrs := [] }

/-- Second delta of the consistency-violating run: update B in place with the
executor flag cleared and quiescing still false. -/
def c1Inp2 : UpdateInput :=
  { topic := some { is_delta := true,
                    topic_entries := [{ key := "B", value := some descB2,
                                        deleted := false }] },
    local_be_desc := none, ss_is_recovering := false, elapsedAddrs := [] }

/-- The manager state after the two deltas of the consistency-violating run. -/
def c1Final : CmmState :=
  (updateMembership (updateMembership (cmmInit "local") c1Inp1).1 c1Inp2).1

/-- The delta of the version run: a delta update registering backend B. -/
def c2Delta : TTopicDelta :=
  { is_delta := true,
    topic_entries := [{ key := "B", value := some descB1, deleted := false }] }

/-- First update of the version run: register backend B and the local
coordinator descriptor. -/
def c2Inp1 : UpdateInput :=
  { topic := some c2Delta,
    local_be_desc := some descL, ss_is_recovering := false, elapsedAddrs := [] }

/-- An empty delta arriving at a state that needs no other work: the
early-return case of `UpdateMembership`. -/
def c8EmptyDelta : TTopicDelta := { is_delta := true, topic_entries := [] }

/-- The environment of the early-return witness call. -/
def c8EmptyInput : UpdateInput :=
  { topic := some c8EmptyDelta, local_be_desc := none, ss_is_recovering := false,
    elapsedAddrs := [] }

/-- State after the first publish of the version run. -/
def c2S1 : CmmState := (updateMembership (cmmInit "local") c2Inp1).1

/-- The snapshot published by the first call of the version run. -/
def c2Pub1 : Option Snapshot := (updateMembership (cmmInit "local") c2Inp1).2

/-- The snapshot published by the immediately following `BlacklistExecutor`
call of the version run. -/
def c2Pub2 : Option Snapshot := (blacklistExecutor c2S1 true descB1).2

end CMM


namespace Sink

/-- Once the sender state is `CLOSED_NOT_EOS`, every event other than
`flushFinal` leaves it unchanged. -/
theorem senderStep_closed_not_eos (e : SinkEvent) (he : e ≠ SinkEvent.flushFinal) :
    senderStep SenderState.CLOSED_NOT_EOS e = SenderState.CLOSED_NOT_EOS := by
  cases e <;> simp [senderStep] at he ⊢

/-- Along a trace without `flushFinal` starting at `CLOSED_NOT_EOS`, every
`GetNext` reports `eos = false`. -/
theorem eosOutputs_closed_not_eos (tr : List SinkEvent)
    (hnf : SinkEvent.flushFinal ∉ tr) :
    ∀ b ∈ eosOutputs SenderState.CLOSED_NOT_EOS tr, b = false := by
  induction tr with
  | nil => intro b hb; simp [eosOutputs] at hb
  | cons e tr ih =>
      have he : e ≠ SinkEvent.flushFinal := fun h => hnf (h ▸ List.mem_cons_self _ _)
      have hnf' : SinkEvent.flushFinal ∉ tr := fun h => hnf (List.mem_cons_of_mem _ h)
      intro b hb
      cases e with
      | getNext n =>
          simp only [eosOutputs, senderStep, getNextEos, List.cons_append,
            List.nil_append] at hb
          rcases List.mem_cons.mp hb with hb | hb
          · simp [hb]
          · exact ih hnf' b hb
      | flushFinal => exact absurd rfl he
      | sendPass batch cursor =>
          simp only [eosOutputs, senderStep, List.nil_append] at hb
          exact ih hnf' b hb
      | close =>
          simp only [eosOutputs, List.nil_append] at hb
          rw [senderStep_closed_not_eos SinkEvent.close (by simp)] at hb
          exact ih hnf' b hb
      | cancel =>
          simp only [eosOutputs, senderStep, List.nil_append] at hb
          exact ih hnf' b hb

/-- C4: if `Close` runs while `sender_state` is still `ROWS_PENDING`, the state
becomes `CLOSED_NOT_EOS`, and every subsequent `GetNext` (along any trace in
which `FlushFinal` never runs) reports `eos = false`, since `eos` is set to
true only when the sender state equals `EOS`. -/
theorem c4_close_before_flush_reports_eos_false (s : SenderState)
    (tr : List SinkEvent) (hs : s = SenderState.ROWS_PENDING)
    (hnf : SinkEvent.flushFinal ∉ tr) :
    senderStep s SinkEvent.close = SenderState.CLOSED_NOT_EOS ∧
    ∀ b ∈ eosOutputs (senderStep s SinkEvent.close) tr, b = false := by
  subst hs
  have hclose : senderStep SenderState.ROWS_PENDING SinkEvent.close =
      SenderState.CLOSED_NOT_EOS := by simp [senderStep]
  exact ⟨hclose, hclose ▸ eosOutputs_closed_not_eos tr hnf⟩

/-- Witness for C4 at a concrete trace of consumer and producer events. -/
theorem c4_close_before_flush_reports_eos_false_witness :
    SenderState.ROWS_PENDING = SenderState.ROWS_PENDING ∧
    SinkEvent.flushFinal ∉ c4Trace ∧
    (senderStep SenderState.ROWS_PENDING SinkEvent.close = SenderState.CLOSED_NOT_EOS ∧
      ∀ b ∈ eosOutputs (senderStep SenderState.ROWS_PENDING SinkEvent.close) c4Trace,
        b = false) :=
  ⟨rfl, by decide,
    c4_close_before_flush_reports_eos_false SenderState.ROWS_PENDING c4Trace rfl
      (by decide)⟩

/-- The `int` fetch count of the source agrees with the specification's
`min`/unbounded description whenever the pass is entered with rows remaining
and a non-negative request. -/
theorem numToFetch_toNat (len cursor : Nat) (requested : Int)
    (hcur : cursor < len) (hreq : 0 ≤ requested) :
    (numToFetch len cursor requested).toNat = specFetchCount len cursor requested := by
  simp only [numToFetch, specFetchCount]
  by_cases hpos : requested > 0
  · rw [if_pos hpos, if_pos hpos]
    rcases le_total ((len : Int) - (cursor : Int)) requested with h | h
    · rw [min_eq_left h, min_eq_left (by omega)]
      omega
    · rw [min_eq_right h, min_eq_right (by omega)]
  · rw [if_neg hpos, if_neg hpos]
    omega

/-- C5: on a producer pass with a published result set, exactly
`min(remaining, num_rows_requested)` rows are copied when the request is
positive and all remaining rows when it is zero; the cursor advances by that
count, `results` is reset to nil and the consumer is signalled. -/
theorem c5_send_pass_copies_requested (eval : Nat → Nat) (batch : List Nat)
    (cursor : Nat) (rs : List Nat) (requested : Int)
    (hcur : cursor < batch.length) (hreq : 0 ≤ requested) :
    sendPass eval batch cursor (some rs) requested =
      some { delivered := rs ++
               ((batch.drop cursor).take (specFetchCount batch.length cursor requested)).map
                 eval,
             resultsAfter := none,
             newCursor := cursor + specFetchCount batch.length cursor requested,
             consumerSignalled := true } ∧
    ((batch.drop cursor).take (specFetchCount batch.length cursor requested)).length =
      specFetchCount batch.length cursor requested := by
  constructor
  · simp only [sendPass, addRows, numToFetch_toNat batch.length cursor requested hcur hreq]
  · rw [List.length_take, List.length_drop]
    unfold specFetchCount
    split <;> omega

/-- Witness for C5 at a concrete batch, cursor and positive request. -/
theorem c5_send_pass_copies_requested_witness :
    (1 : Nat) < [10, 20, 30].length ∧ (0 : Int) ≤ 1 ∧
    (sendPass (fun x => x) [10, 20, 30] 1 (some [7]) 1 =
        some { delivered := [7] ++
                 (([10, 20, 30].drop 1).take (specFetchCount [10, 20, 30].length 1 1)).map
                   (fun x => x),
               resultsAfter := none,
               newCursor := 1 + specFetchCount [10, 20, 30].length 1 1,
               consumerSignalled := true } ∧
      (([10, 20, 30].drop 1).take (specFetchCount [10, 20, 30].length 1 1)).length =
        specFetchCount [10, 20, 30].length 1 1) :=
  ⟨by decide, by decide,
    c5_send_pass_copies_requested (fun x => x) [10, 20, 30] 1 [7] 1 (by decide) (by decide)⟩

/-- C10: a `GetNext` request with any non-positive `num_results` — not only the
documented 0 — is treated as unbounded: the `num_rows_requested_ > 0` guard
fails, so the producer copies all remaining rows of the batch in one pass. -/
theorem c10_nonpositive_request_unbounded (eval : Nat → Nat) (batch : List Nat)
    (cursor : Nat) (rs : List Nat) (n : Int)
    (hn : n ≤ 0) (hcur : cursor < batch.length) :
    sendPass eval batch cursor (getNextPublish rs n).results
        (getNextPublish rs n).numRowsRequested =
      some { delivered := rs ++ (batch.drop cursor).map eval,
             resultsAfter := none,
             newCursor := batch.length,
             consumerSignalled := true } := by
  have hfetch : (numToFetch batch.length cursor n).toNat = batch.length - cursor := by
    simp only [numToFetch]
    rw [if_neg (by omega)]
    omega
  simp only [getNextPublish, sendPass, addRows, hfetch]
  rw [List.take_of_length_le (Nat.le_of_eq (List.length_drop cursor batch)),
    Nat.add_sub_cancel' (Nat.le_of_lt hcur)]

/-- Witness for C10 at a concrete negative request. -/
theorem c10_nonpositive_request_unbounded_witness :
    (-3 : Int) ≤ 0 ∧ (0 : Nat) < [4, 5].length ∧
    sendPass (fun x => x + 1) [4, 5] 0 (getNextPublish [] (-3)).results
        (getNextPublish [] (-3)).numRowsRequested =
      some { delivered := [] ++ ([4, 5].drop 0).map (fun x => x + 1),
             resultsAfter := none,
             newCursor := [4, 5].length,
             consumerSignalled := true } :=
  ⟨by decide, by decide,
    c10_nonpositive_request_unbounded (fun x => x + 1) [4, 5] 0 [] (-3) (by decide)
      (by decide)⟩

end Sink

namespace HashTable

/-- C6: when `Insert` finds an equal row already resident, a bucket without
duplicates is promoted: a node holding the existing resident's data is
allocated, the bucket is linked to the chain and flagged has-duplicates; in
all cases the newly inserted row's node becomes the head of the chain. -/
theorem c6_insert_found_builds_duplicate_chain (b : Bucket) (alloc : NodeAlloc)
    (h hs : Nat) (d : HtData)
    (hfill : b.filled = true)
    (hsucc : (insertDuplicateNode b alloc).isSome = true) :
    (insert true b alloc h hs d).success = true ∧
    (insert true b alloc h hs d).bucket.hasDuplicates = true ∧
    ((insert true b alloc h hs d).bucket.data.duplicates.head?).map
      DuplicateNode.htdata = some d ∧
    (b.hasDuplicates = false →
      (insert true b alloc h hs d).bucket.data.duplicates =
        [{ htdata := d, matched := false }, { htdata := b.data.htdata, matched := false }]) ∧
    (b.hasDuplicates = true →
      (insert true b alloc h hs d).bucket.data.duplicates =
        { htdata := d, matched := false } :: b.data.duplicates) := by
  obtain ⟨pr, hpr⟩ := Option.isSome_iff_exists.mp hsucc
  obtain ⟨b', a'⟩ := pr
  have hpr2 := hpr
  simp only [insertDuplicateNode] at hpr2
  split at hpr2
  · exact absurd hpr2 (by simp)
  · simp only [Option.some.injEq, Prod.mk.injEq] at hpr2
    obtain ⟨hb', ha'⟩ := hpr2
    subst hb'
    subst ha'
    simp only [insert, hpr]
    cases hdup : b.hasDuplicates <;> simp_all

/-- Witness for C6 at a concrete filled bucket without duplicates. -/
theorem c6_insert_found_builds_duplicate_chain_witness :
    (let b : Bucket := { filled := true, matched := false, hasDuplicates := false,
                         data := { htdata := 11, duplicates := [] } }
     let alloc : NodeAlloc := { nodeRemaining := 0, growPages := [4] }
     b.filled = true ∧ (insertDuplicateNode b alloc).isSome = true ∧
     ((insert true b alloc 9 0 22).success = true ∧
      (insert true b alloc 9 0 22).bucket.hasDuplicates = true ∧
      ((insert true b alloc 9 0 22).bucket.data.duplicates.head?).map
        DuplicateNode.htdata = some 22 ∧
      (b.hasDuplicates = false →
        (insert true b alloc 9 0 22).bucket.data.duplicates =
          [{ htdata := 22, matched := false }, { htdata := b.data.htdata, matched := false }]) ∧
      (b.hasDuplicates = true →
        (insert true b alloc 9 0 22).bucket.data.duplicates =
          { htdata := 22, matched := false } :: b.data.duplicates))) :=
  ⟨rfl, by decide,
    c6_insert_found_builds_duplicate_chain _ _ 9 0 22 rfl (by decide)⟩

/-- C7: if the duplicate-node allocation fails for lack of memory, `Insert`
returns failure and propagates the allocation error through the out-status,
letting the caller fall back to spilling. -/
theorem c7_insert_oom_propagates_status (b : Bucket) (alloc : NodeAlloc)
    (h hs : Nat) (d : HtData)
    (hfail : growLoop (1 + if b.hasDuplicates then 0 else 1) alloc.nodeRemaining
      alloc.growPages = none) :
    (insert true b alloc h hs d).success = false ∧
    (insert true b alloc h hs d).status = Status.memLimitExceeded := by
  have hnone : insertDuplicateNode b alloc = none := by
    simp only [insertDuplicateNode, hfail]
  simp [insert, hnone]

/-- Witness for C7: an exhausted node page with no further pages available. -/
theorem c7_insert_oom_propagates_status_witness :
    (let b : Bucket := { filled := true, matched := false, hasDuplicates := false,
                         data := { htdata := 11, duplicates := [] } }
     let alloc : NodeAlloc := { nodeRemaining := 1, growPages := [] }
     growLoop (1 + if b.hasDuplicates then 0 else 1) alloc.nodeRemaining
       alloc.growPages = none ∧
     ((insert true b alloc 9 0 22).success = false ∧
      (insert true b alloc 9 0 22).status = Status.memLimitExceeded)) :=
  ⟨by decide, c7_insert_oom_propagates_status _ _ 9 0 22 (by decide)⟩

/-- Unfolding of the triangular numbers. -/
theorem tri_succ (k : Nat) : tri (k + 1) = tri k + (k + 1) := by
  unfold tri
  have h : (k + 1) * (k + 1 + 1) = k * (k + 1) + 2 * (k + 1) := by ring
  rw [h, Nat.add_mul_div_left _ _ (by norm_num)]

/-- Twice a triangular number. -/
theorem two_mul_tri (k : Nat) : 2 * tri k = k * (k + 1) := by
  induction k with
  | zero => rfl
  | succ k ih => rw [tri_succ, Nat.mul_add, ih]; ring

/-- Monotonicity of the triangular numbers. -/
theorem tri_le_tri {j k : Nat} (h : j ≤ k) : tri j ≤ tri k := by
  unfold tri
  exact Nat.div_le_div_right (Nat.mul_le_mul h (by omega))

/-- Two triangular offsets below a power of two that agree modulo that power
of two are equal: the core of the quadratic-probe permutation argument. -/
theorem tri_mod_inj_aux (m base j d : Nat) (hk : j + d < 2 ^ m)
    (h : (base + tri j) % 2 ^ m = (base + tri (j + d)) % 2 ^ m) : d = 0 := by
  have hmod : tri j ≡ tri (j + d) [MOD 2 ^ m] := Nat.ModEq.add_left_cancel' base h
  have hle : tri j ≤ tri (j + d) := tri_le_tri (Nat.le_add_right _ _)
  have hdvd : 2 ^ m ∣ tri (j + d) - tri j := (Nat.modEq_iff_dvd' hle).mp hmod
  have h2 : 2 * (tri (j + d) - tri j) = d * (2 * j + d + 1) := by
    have e1 := two_mul_tri (j + d)
    have e2 := two_mul_tri j
    have e3 : (j + d) * (j + d + 1) = j * (j + 1) + d * (2 * j + d + 1) := by ring
    omega
  have hdvd2 : 2 ^ (m + 1) ∣ d * (2 * j + d + 1) := by
    rw [← h2, pow_succ, Nat.mul_comm (2 ^ m) 2]
    exact Nat.mul_dvd_mul_left 2 hdvd
  have hpow : 2 ^ (m + 1) = 2 * 2 ^ m := by rw [pow_succ]; ring
  rcases Nat.even_or_odd d with hev | hod
  · by_contra hd0
    have hsodd : Odd (2 * j + d + 1) := by
      rcases hev with ⟨e, he⟩
      exact ⟨j + e, by omega⟩
    have hco : Nat.Coprime (2 ^ (m + 1)) (2 * j + d + 1) :=
      Nat.Coprime.pow_left _ (Nat.coprime_two_left.mpr hsodd)
    have hdd : 2 ^ (m + 1) ∣ d := hco.dvd_of_dvd_mul_right hdvd2
    have hdl : 2 ^ (m + 1) ≤ d := Nat.le_of_dvd (by omega) hdd
    omega
  · have hco : Nat.Coprime (2 ^ (m + 1)) d :=
      Nat.Coprime.pow_left _ (Nat.coprime_two_left.mpr hod)
    have hdvds : 2 ^ (m + 1) ∣ 2 * j + d + 1 := hco.dvd_of_dvd_mul_left hdvd2
    have hsl : 2 ^ (m + 1) ≤ 2 * j + d + 1 := Nat.le_of_dvd (by omega) hdvds
    omega

/-- Injectivity of the triangular probe sequence below a power of two. -/
theorem tri_mod_inj (m base : Nat) :
    ∀ j k, j < 2 ^ m → k < 2 ^ m →
      (base + tri j) % 2 ^ m = (base + tri k) % 2 ^ m → j = k := by
  intro j k hj hk h
  rcases Nat.le_total j k with hjk | hkj
  · obtain ⟨d, rfl⟩ := Nat.exists_eq_add_of_le hjk
    have := tri_mod_inj_aux m base j d hk h
    omega
  · obtain ⟨d, rfl⟩ := Nat.exists_eq_add_of_le hkj
    have := tri_mod_inj_aux m base k d hj h.symm
    omega

/-- The triangular probe sequence visits all buckets: its image over the first
`N` steps is exactly `0..N-1`. -/
theorem probe_image_eq_range (m base : Nat) :
    Finset.image (fun k => (base + tri k) % 2 ^ m) (Finset.range (2 ^ m)) =
      Finset.range (2 ^ m) := by
  have hpos : 0 < 2 ^ m := pow_pos (by norm_num) m
  apply Finset.eq_of_subset_of_card_le
  · intro x hx
    simp only [Finset.mem_image, Finset.mem_range] at hx ⊢
    obtain ⟨k, _, rfl⟩ := hx
    exact Nat.mod_lt _ hpos
  · rw [Finset.card_image_of_injOn]
    intro a ha b hb hab
    exact tri_mod_inj m base a b (Finset.mem_range.mp ha) (Finset.mem_range.mp hb) hab

/-- The loop of `Probe` advances by the incremented step with a power-of-two
mask, so after `k` advances the bucket index is the `k`-th triangular probe
position. -/
theorem bucketSeq_eq_tri_mod (m hash : Nat) :
    ∀ k, bucketSeq hash (2 ^ m) k = (hash + tri k) % 2 ^ m := by
  intro k
  induction k with
  | zero => simp [bucketSeq, tri, Nat.and_pow_two_sub_one_eq_mod]
  | succ k ih =>
      rw [bucketSeq, ih, Nat.and_pow_two_sub_one_eq_mod, Nat.mod_add_mod, tri_succ,
        Nat.add_assoc]

/-- C3: with a power-of-two bucket count, the probe loop's index sequence is
`(base + k*(k+1)/2) mod N`, which over the first `N` steps is injective and
covers every bucket exactly once (a permutation of `0..N-1`). -/
theorem c3_quadratic_probe_is_permutation (m hash N : Nat) (hN : N = 2 ^ m) :
    (∀ k, bucketSeq hash N k = (hash + tri k) % N) ∧
    (∀ j k, j < N → k < N →
      (hash + tri j) % N = (hash + tri k) % N → j = k) ∧
    Finset.image (fun k => (hash + tri k) % N) (Finset.range N) = Finset.range N := by
  subst hN
  exact ⟨bucketSeq_eq_tri_mod m hash, tri_mod_inj m hash, probe_image_eq_range m hash⟩

/-- Witness for C3 at `N = 8`, `hash = 5`. -/
theorem c3_quadratic_probe_is_permutation_witness :
    (8 : Nat) = 2 ^ 3 ∧
    bucketSeq 5 8 3 = (5 + tri 3) % 8 ∧
    Finset.image (fun k => (5 + tri k) % 8) (Finset.range 8) = Finset.range 8 :=
  ⟨by norm_num, (c3_quadratic_probe_is_permutation 3 5 8 (by norm_num)).1 3,
    (c3_quadratic_probe_is_permutation 3 5 8 (by norm_num)).2.2⟩

end HashTable

namespace CMM

/-- Topic-item processing never changes the snapshot version. -/
theorem processItem_version (lid : String) (acc : Snapshot × Bool) (item : TTopicItem) :
    ((processItem lid acc item).1).version = acc.1.version := by
  obtain ⟨st, uls⟩ := acc
  simp only [processItem]
  split
  · split <;> simp
  · split
    · simp
    · split
      · simp
      · split
        · simp
        · split <;> simp

/-- Folding topic-item processing over a delta never changes the version. -/
theorem foldl_processItem_version (lid : String) (items : List TTopicItem) :
    ∀ acc : Snapshot × Bool,
      ((items.foldl (processItem lid) acc).1).version = acc.1.version := by
  induction items with
  | nil => intro acc; rfl
  | cons it items ih =>
      intro acc
      rw [List.foldl_cons, ih (processItem lid acc it), processItem_version]

/-- Blacklist maintenance never changes the version. -/
theorem applyMaintenance_version (st : Snapshot) (elapsed : List TNetworkAddress) :
    (applyMaintenance st elapsed).version = st.version := by
  simp [applyMaintenance]

/-- Applying the local backend descriptor never changes the version. -/
theorem applyLocalBe_version (st : Snapshot) (localId : String)
    (ld : TBackendDescriptor) :
    (applyLocalBe st localId ld).version = st.version := by
  simp [applyLocalBe]

/-- A snapshot built by a delta update with no recovering snapshot pending has
version one greater than the current snapshot. -/
theorem applyUpdate_version (s : CmmState) (inp : UpdateInput) (u : TTopicDelta)
    (hdelta : u.is_delta = true) (hrec : s.recovering_membership = none) :
    (applyUpdate s inp u).version = s.current_membership.version + 1 := by
  have hfold := foldl_processItem_version s.local_backend_id u.topic_entries
  cases hlb : inp.local_be_desc with
  | none =>
      simp only [applyUpdate, hrec, hdelta, hlb, Option.getD_none, Bool.not_true,
        Bool.false_eq_true, if_false]
      split
      · rw [applyMaintenance_version, hfold]
      · rw [hfold]
  | some ld =>
      simp only [applyUpdate, hrec, hdelta, hlb, Option.getD_none, Bool.not_true,
        Bool.false_eq_true, if_false]
      split
      · split
        · rw [applyLocalBe_version, applyMaintenance_version, hfold]
        · rw [applyMaintenance_version, hfold]
      · split
        · rw [applyLocalBe_version, hfold]
        · rw [hfold]

/-- C2 (amended): a publish performed by `UpdateMembership` for a delta update,
with no recovering snapshot pending, carries version exactly one greater than
the current snapshot's, while a publish performed by `BlacklistExecutor`
carries the current snapshot's version unchanged — so versions never decrease
across publishes but are not strictly monotonic. -/
theorem c2_publish_version_behavior (s : CmmState) (inp : UpdateInput)
    (u : TTopicDelta) (enabled : Bool) (be : TBackendDescriptor)
    (htop : inp.topic = some u) (hdelta : u.is_delta = true)
    (hrec : s.recovering_membership = none) :
    (∀ p, (updateMembership s inp).2 = some p →
        p.version = s.current_membership.version + 1) ∧
    (∀ p, (blacklistExecutor s enabled be).2 = some p →
        p.version = s.current_membership.version) := by
  constructor
  · intro p hp
    simp only [updateMembership, htop] at hp
    by_cases he : earlyReturnNoWork s inp u = true
    · rw [if_pos he] at hp
      simp at hp
    · rw [if_neg he] at hp
      by_cases hss : inp.ss_is_recovering = true
      · rw [if_pos hss] at hp
        simp at hp
      · rw [if_neg hss] at hp
        simp only [Option.some.injEq] at hp
        rw [← hp]
        exact applyUpdate_version s inp u hdelta hrec
  · intro p hp
    simp only [blacklistExecutor] at hp
    split at hp
    · simp at hp
    · split at hp
      · simp at hp
      · split at hp
        · simp at hp
        · split at hp
          · simp at hp
          · split at hp
            · simp at hp
            · simp only [Option.some.injEq] at hp
              rw [← hp]
              simp [hrec]

/-- Witness for the amended C2: the concrete run publishes version 2 from
`UpdateMembership` and an unchanged version 1 from `BlacklistExecutor`. -/
theorem c2_publish_version_behavior_witness :
    (updateMembership c2S1 c2Inp1).2.map Snapshot.version =
      some (c2S1.current_membership.version + 1) ∧
    (blacklistExecutor c2S1 true descB1).2.map Snapshot.version =
      some c2S1.current_membership.version := by
  have h := c2_publish_version_behavior c2S1 c2Inp1 c2Delta true descB1 rfl rfl
    (by decide)
  constructor
  · cases hpv : (updateMembership c2S1 c2Inp1).2 with
    | none => exact absurd hpv (by decide)
    | some p => rw [Option.map_some', h.1 p hpv]
  · cases hpv : (blacklistExecutor c2S1 true descB1).2 with
    | none => exact absurd hpv (by decide)
    | some p => rw [Option.map_some', h.2 p hpv]

/-- C2 (counterexample): in the concrete reachable run, the publish made by
`UpdateMembership` and the immediately following publish made by
`BlacklistExecutor` both carry version 1, so the later snapshot's version is
not strictly greater than the earlier one's. -/
theorem c2_strict_monotonicity_counterexample :
    c2Pub1.map Snapshot.version = some 1 ∧
    c2Pub2.map Snapshot.version = some 1 ∧ ¬ (1 < 1) := by
  refine ⟨by decide, by decide, by omega⟩

/-- C1 (failing input): after registering backend B as an executor of group g1
and then updating B in place with `is_executor = false` and
`is_quiescing = false`, the published snapshot keeps B's stale
executor-flagged descriptor in g1 while `current_backends` disagrees on
`is_executor`, so the consistency check of `CheckConsistency` fails on a
reachable published snapshot. -/
theorem c1_consistency_violated_at_failing_input :
    checkConsistency c1Final.current_membership.current_backends
      c1Final.current_membership.executor_groups
      c1Final.current_membership.executor_blacklist = false := by
  decide

/-- C8: `UpdateMembership` returns with both snapshot slots untouched and
publishes nothing whenever the membership topic is absent from the incoming
delta map, or the update is an empty delta while no local-backend change, no
post-recovery publish and no blacklist maintenance is due. -/
theorem c8_update_membership_early_return (s : CmmState) (inp : UpdateInput)
    (h : inp.topic = none ∨
      ∃ u, inp.topic = some u ∧ earlyReturnNoWork s inp u = true) :
    updateMembership s inp = (s, none) := by
  rcases h with h | ⟨u, hu, hw⟩
  · simp [updateMembership, h]
  · simp [updateMembership, hu, hw]

/-- Witness for C8: an empty delta arriving at the concrete post-publish state
with nothing else to do. -/
theorem c8_update_membership_early_return_witness :
    updateMembership c2S1 c8EmptyInput = (c2S1, none) :=
  c8_update_membership_early_return c2S1 c8EmptyInput
    (Or.inr ⟨c8EmptyDelta, rfl, by decide⟩)

/-- A single manager call preserves non-nullness of the published snapshot
pointer. -/
theorem ptrStep_preserves_isSome (p : CmmPtr) (c : CmmCall)
    (h : (getSnapshot p).isSome = true) :
    (getSnapshot (ptrStep p c)).isSome = true := by
  simp only [getSnapshot] at h ⊢
  cases hc : p.current with
  | none => rw [hc] at h; simp at h
  | some cur => simp [ptrStep, hc]

/-- Any sequence of manager calls preserves non-nullness of the published
snapshot pointer. -/
theorem ptrRun_preserves_isSome (cs : List CmmCall) :
    ∀ p : CmmPtr, (getSnapshot p).isSome = true →
      (getSnapshot (ptrRun p cs)).isSome = true := by
  induction cs with
  | nil => intro p h; exact h
  | cons c cs ih =>
      intro p h
      exact ih (ptrStep p c) (ptrStep_preserves_isSome p c h)

/-- C9: `GetSnapshot` never returns a null pointer: the constructor installs a
non-null empty snapshot, and after any sequence of `UpdateMembership` and
`BlacklistExecutor` calls the published pointer is still non-null. -/
theorem c9_get_snapshot_never_null (lid : String) (calls : List CmmCall) :
    getSnapshot (cmmPtrInit lid) = some Snapshot.empty ∧
    (getSnapshot (ptrRun (cmmPtrInit lid) calls)).isSome = true :=
  ⟨rfl, ptrRun_preserves_isSome calls (cmmPtrInit lid) rfl⟩

end CMM

namespace CMM

/-- Witness for C9 at a concrete call sequence. -/
theorem c9_get_snapshot_never_null_witness :
    getSnapshot (cmmPtrInit "local") = some Snapshot.empty ∧
    (getSnapshot (ptrRun (cmmPtrInit "local")
      [CmmCall.update c2Inp1, CmmCall.blacklistExec true descB1])).isSome = true :=
  c9_get_snapshot_never_null "local"
    [CmmCall.update c2Inp1, CmmCall.blacklistExec true descB1]

end CMM
